import Mathlib

/-!
# Verification of the taxi matching / notification-dispatch core

Shallow embedding of the matching and dispatch core of the `hi9ne/taxi`
repository.  Pure logic is transcribed from the Python sources
(`handlers/post.py`, `handlers/start.py`, `utils/retry_utils.py`,
`database/db.py`).  Modules imported by those files but absent from the
source tree (`services/matching.py`, `services/keys_generator.py`,
`database/models.py`, `config.py`, `tasks/notifications.py`) are modelled
from the specification; each such definition carries a doc comment
beginning `Modelled from the spec:`.
-/

namespace Taxi

/-- Modelled from the spec: `database/models.py` is absent from the source
tree.  A registered user; only the fields read by the modelled operations
(§3 "Ownership", `handlers/post.py` lookups by `telegram_id` / `id`). -/
structure User where
  id : Nat
  telegram_id : Nat
deriving DecidableEq

/-- Modelled from the spec: `database/models.py` is absent from the source
tree.  A time-bounded ride offer with the attributes of spec §3 "Post"
(the external channel-message reference is dropped: the channel service is
out of the modelled core).  Times are abstract minute counts. -/
structure Post where
  id : Nat
  author_id : Nat
  role : String
  from_place : String
  to_place : String
  keys_from : List String
  keys_to : List String
  departure_time : String
  seats : Option Nat
  price : Int
  status : String
  created_at : Nat
  expires_at : Nat
deriving DecidableEq

/-- Modelled from the spec: `database/models.py` is absent from the source
tree.  A standing route subscription (spec §3 "Subscription"). -/
structure Subscription where
  user_id : Nat
  keys_from : List String
  keys_to : List String
  from_text : String
  to_text : String
deriving DecidableEq

/-- The notification dedup ledger: a list of `(post_id, recipient_id)`
pairs (spec §3 "NotificationLogEntry"; creation times are irrelevant to
the dedup behaviour and omitted). -/
abbrev Log := List (Nat × Nat)

/-- Modelled from the spec: `config.py` is absent from the source tree.
Spec §8 fixes the lifetime window at 60 minutes ("a post created with
expiry = now + 60 minutes"). -/
def POST_LIFETIME_MINUTES : Nat := 60

/-! ## KeyGenerator (spec §4.1)

`services/keys_generator.py` is absent from the source tree; the whole
component is modelled from the spec: case folding, punctuation stripping,
whitespace collapsing, tokenization into a duplicate-free key set. -/

/-- Modelled from the spec: case folding for the ASCII and Cyrillic
letters appearing in the repository's place names. -/
def charLower (c : Char) : Char :=
  if 65 ≤ c.toNat ∧ c.toNat ≤ 90 then Char.ofNat (c.toNat + 32)
  else if 0x410 ≤ c.toNat ∧ c.toNat ≤ 0x42F then Char.ofNat (c.toNat + 32)
  else if c.toNat = 0x401 then Char.ofNat 0x451
  else c

/-- Modelled from the spec: characters that survive punctuation stripping
(ASCII alphanumerics and lower-case Cyrillic letters; the input is case
folded first). -/
def isWordChar (c : Char) : Bool :=
  c.isAlphanum || decide (0x430 ≤ c.toNat ∧ c.toNat ≤ 0x44F) ||
    decide (c.toNat = 0x451)

/-- Splits a character list on spaces, dropping empty fragments.  The
second argument accumulates the current (reversed) token. -/
def splitTokensAux : List Char → List Char → List String
  | [], cur => if cur.isEmpty then [] else [String.mk cur.reverse]
  | c :: rest, cur =>
    if c = ' ' then
      if cur.isEmpty then splitTokensAux rest []
      else String.mk cur.reverse :: splitTokensAux rest []
    else splitTokensAux rest (c :: cur)

/-- Tokenizes an already case-folded character list: punctuation becomes
whitespace, then tokens are collected and deduplicated. -/
def keysOfChars (cs : List Char) : List String :=
  (splitTokensAux (cs.map (fun c => if isWordChar c then c else ' ')) []).dedup

/-- Modelled from the spec: `services/keys_generator.py` is absent from
the source tree.  `generate_keys(text)` (spec §4.1): a deterministic,
pure map from free text to a duplicate-free set of normalized tokens
(case folding, punctuation stripping, whitespace collapsing). -/
def generate_keys (s : String) : List String :=
  keysOfChars (s.toList.map charLower)

/-! ## Transient-storage-error retry helper (`utils/retry_utils.py`) -/

/-- One structural step of `retry_on_database_error`
(`utils/retry_utils.py` lines 10-57).  `outcomes i` is the result of the
`i`-th call of `func`; `isTimeoutE` is the classifier
(`"timeout" in msg` / `"Request timeout error"` /
`"generator didn't stop after athrow"`).  Returns the overall result and
the list of back-off sleeps performed (in units of `delay`·seconds). -/
def retryGo {E A : Type} (outcomes : Nat → Except E A) (isTimeoutE : E → Bool)
    (max_retries : Nat) (delay : Nat) (attempt : Nat) : Except E A × List Nat :=
  match outcomes attempt with
  | .ok a => (.ok a, [])
  | .error e =>
    if isTimeoutE e then
      if h : attempt < max_retries then
        let r := retryGo outcomes isTimeoutE max_retries delay (attempt + 1)
        (r.1, delay * 2 ^ attempt :: r.2)
      else (.error e, [])
    else (.error e, [])
termination_by max_retries - attempt
decreasing_by omega

/-- `retry_on_database_error` (`utils/retry_utils.py` lines 10-57): run
`func` up to `max_retries + 1` times, sleeping `delay * 2 ^ attempt`
between timeout-classified failures; non-timeout errors are re-raised at
once; if every attempt fails the last exception is raised. -/
def retry_on_database_error {E A : Type} (outcomes : Nat → Except E A)
    (isTimeoutE : E → Bool) (max_retries : Nat) (delay : Nat) :
    Except E A × List Nat :=
  retryGo outcomes isTimeoutE max_retries delay 0

/-! ## Price validation (`handlers/post.py` `process_price`, lines 276-330) -/

/-- All-ASCII-digit parse of a character list. -/
def digitsToNat (cs : List Char) : Option Nat :=
  if cs ≠ [] ∧ cs.all Char.isDigit then
    some (cs.foldl (fun n c => n * 10 + (c.toNat - 48)) 0)
  else none

/-- Models Python's built-in `int()` restricted to the ASCII decimal forms
relevant here: an optional `+`/`-` sign followed by one or more digits
(underscore grouping and non-ASCII digits are out of the modelled input
space). -/
def pyInt (s : String) : Option Int :=
  match s.toList with
  | '+' :: rest => (digitsToNat rest).map Int.ofNat
  | '-' :: rest => (digitsToNat rest).map (fun n => -(n : Int))
  | cs => (digitsToNat cs).map Int.ofNat

/-- Outcome of the price step of the creation dialog. -/
inductive PriceResult where
  | cancelled
  | back
  | reprompt
  | accepted (p : Int)
deriving DecidableEq

/-- `text.replace(" ", "")`: for the single-character pattern `" "` this
is exactly the removal of every space character. -/
def stripSpaces (s : String) : String :=
  String.mk (s.toList.filter (fun c => !(c == ' ')))

/-- `process_price` (`handlers/post.py` lines 276-330): cancel / back
buttons first, then `int(text.replace(" ", ""))`; a parse failure or a
value outside `(0, MAX_PRICE]` raises `ValueError`, which is caught and
answered with a re-prompt while the dialog stays in
`CreatePost.entering_price`; otherwise the price is stored and the flow
moves on to confirmation.  `MAX_PRICE` comes from the absent `config.py`
and is kept as a parameter. -/
def process_price (text : String) (MAX_PRICE : Int) : PriceResult :=
  if text = "❌ Отмена" then .cancelled
  else if text = "◀️ Назад" then .back
  else
    match pyInt (stripSpaces text) with
    | some price => if price ≤ 0 ∨ price > MAX_PRICE then .reprompt else .accepted price
    | none => .reprompt

/-! ## Active-post gate (`handlers/post.py` `start_create_post`, lines 37-114) -/

/-- Outcome of the create-post entry point. -/
inductive StartCreateResult where
  | notRegistered
  | rejectedActive (post_id : Nat)
  | proceed (user_id : Nat)
deriving DecidableEq

/-- `start_create_post` (`handlers/post.py` lines 37-114): look the caller
up by `telegram_id`; unregistered users are turned away; if the user has a
post with status `"active"` the creation attempt is rejected (the existing
post is shown, nothing is created); otherwise the dialog proceeds to the
first step. -/
def start_create_post (users : List User) (posts : List Post) (tg_id : Nat) :
    StartCreateResult :=
  match users.find? (fun u => u.telegram_id == tg_id) with
  | none => .notRegistered
  | some user =>
    match posts.find? (fun p => p.author_id == user.id && p.status == "active") with
    | some active_post => .rejectedActive active_post.id
    | none => .proceed user.id

/-! ## Subscriptions (`handlers/post.py` `subscribe_to_route`, lines 559-581) -/

/-- Two subscription rows collide on the uniqueness key
`(owner, origin keys, destination keys)` (spec §3 "Subscription"). -/
def sameSubKey (s t : Subscription) : Bool :=
  s.user_id == t.user_id && s.keys_from == t.keys_from && s.keys_to == t.keys_to

/-- Modelled from the spec: the uniqueness constraint lives in the absent
`database/models.py`.  Atomic insert that rejects a row colliding with an
existing one on `(owner, origin keys, destination keys)` (spec §3, §6
"atomic insert with uniqueness enforcement"). -/
def insertSubscription (subs : List Subscription) (s : Subscription) :
    Except Unit (List Subscription) :=
  if subs.any (sameSubKey s) then .error () else .ok (s :: subs)

/-- `subscribe_to_route` (`handlers/post.py` lines 559-581): build the
subscription from the dialog data and try to commit it; on any insert
failure the handler answers "Такая подписка уже существует" instead of
crashing, leaving the stored rows unchanged. -/
def subscribe_to_route (subs : List Subscription) (s : Subscription) :
    List Subscription × String :=
  match insertSubscription subs s with
  | .ok subs1 => (subs1, "✅ Подписка создана!")
  | .error _ => (subs, "Такая подписка уже существует")

/-! ## NotificationLedger (spec §4.3)

`services/matching.py` is absent from the source tree; `has_notified`,
`record_notified` and the two matching queries are modelled from the
spec (§4.2, §4.3), while the notification loops below are transcribed
from the visible `publish_post` body. -/

/-- Modelled from the spec: `has_notified(post_id, recipient_id)`
(spec §4.3) — membership in the dedup ledger. -/
def has_notified (log : Log) (post_id recipient_id : Nat) : Bool :=
  log.contains (post_id, recipient_id)

/-- Modelled from the spec: `record_notified(post_id, recipient_id)`
(spec §4.3) — insert-if-absent; the uniqueness constraint turns a
duplicate insert into "already notified", a no-op rather than an error. -/
def record_notified (log : Log) (post_id recipient_id : Nat) : Log :=
  if has_notified log post_id recipient_id then log
  else (post_id, recipient_id) :: log

/-! ## MatchEngine (spec §4.2) -/

/-- Non-empty intersection of two key sets — the matching predicate
(spec §4.2: "Intersection, not equality"). -/
def keysIntersect (a b : List String) : Bool :=
  a.any (fun k => b.contains k)

/-- Modelled from the spec: `find_matching_subscriptions(new_post)`
(spec §4.2) — owners of subscriptions whose origin and destination key
sets both intersect the post's, excluding the post's author; returns a
set of user ids (hence the dedup). -/
def find_matching_subscriptions (subs : List Subscription) (post : Post) :
    List Nat :=
  ((subs.filter (fun s =>
      s.user_id != post.author_id &&
      keysIntersect s.keys_from post.keys_from &&
      keysIntersect s.keys_to post.keys_to)).map (fun s => s.user_id)).dedup

/-- Resolve a user id to its row. -/
def findUserById (users : List User) (i : Nat) : Option User :=
  users.find? (fun u => u.id == i)

/-- Modelled from the spec: `get_users_to_notify(post, candidate_ids)`
(spec §4.2) — drop every candidate already present in the ledger for this
post, then resolve the rest to user records. -/
def get_users_to_notify (users : List User) (log : Log) (post : Post)
    (candidate_ids : List Nat) : List User :=
  (candidate_ids.filter (fun i => !(has_notified log post.id i))).filterMap
    (findUserById users)

/-- Modelled from the spec: `find_matching_posts(new_post)` (spec §4.2) —
all *other* active posts of the opposite role, by a different author,
whose key sets intersect the new post's symmetrically. -/
def find_matching_posts (posts : List Post) (post : Post) : List Post :=
  posts.filter (fun q =>
    q.id != post.id && q.author_id != post.author_id &&
    q.status == "active" && q.role != post.role &&
    keysIntersect q.keys_from post.keys_from &&
    keysIntersect q.keys_to post.keys_to)

/-- A fire-and-forget dispatch enqueue (`send_match_notification.delay`):
the recipient and the id the notification is keyed by (`post_data["id"]`). -/
structure Dispatch where
  recipient_db_id : Nat
  post_data_id : Nat
deriving DecidableEq

/-- Subscription-path notification loop (`handlers/post.py` lines
420-450): one enqueue per user returned by `get_users_to_notify`, keyed
by the new post's id.  The ledger entry written at enqueue time is
modelled from the spec (§2: "a dispatch request is enqueued and the
ledger is updated"; the recording itself lives in the absent
`services/matching.py` / `tasks/notifications.py`). -/
def subscriptionNotify (post : Post) :
    List User → Log → List Dispatch × Log
  | [], log => ([], log)
  | u :: rest, log =>
    let log1 := record_notified log post.id u.id
    let r := subscriptionNotify post rest log1
    (⟨u.id, post.id⟩ :: r.1, r.2)

/-- Post-to-post notification loop (`handlers/post.py` lines 458-533):
for each matching post, resolve its author (skip if missing), skip the
whole iteration when `(post.id, matching_author.id)` is already in the
ledger, otherwise enqueue to the matching author keyed by the new post's
id (ledger entry at enqueue, modelled from the spec as above) **and**
enqueue to the publishing author keyed by the matching post's id — the
second enqueue performs no ledger lookup or record of its own. -/
def postToPostNotify (post : Post) (author : User) (users : List User) :
    List Post → Log → List Dispatch × Log
  | [], log => ([], log)
  | mp :: rest, log =>
    match findUserById users mp.author_id with
    | none => postToPostNotify post author users rest log
    | some ma =>
      if has_notified log post.id ma.id then
        postToPostNotify post author users rest log
      else
        let log1 := record_notified log post.id ma.id
        let r := postToPostNotify post author users rest log1
        (⟨ma.id, post.id⟩ :: ⟨author.id, mp.id⟩ :: r.1, r.2)

/-- One full matching pass for a post (`handlers/post.py` lines 416-533):
the subscription path, then the post-to-post path, threading the ledger. -/
def matchingPass (users : List User) (subs : List Subscription)
    (posts : List Post) (author : User) (post : Post) (log : Log) :
    List Dispatch × Log :=
  let ids := find_matching_subscriptions subs post
  let to_notify := get_users_to_notify users log post ids
  let r1 := subscriptionNotify post to_notify log
  let mps := find_matching_posts posts post
  let r2 := postToPostNotify post author users mps r1.2
  (r1.1 ++ r2.1, r2.2)

/-- The environment one matching pass reads (the rows visible to its
queries). -/
structure MatchEnv where
  users : List User
  subs : List Subscription
  posts : List Post
deriving DecidableEq

/-- Any number of matching passes for the same post (retries of the
publish transaction, or the same post seen by both paths), threading the
durable ledger through. -/
def runPasses (author : User) (post : Post) :
    List MatchEnv → Log → List Dispatch × Log
  | [], log => ([], log)
  | env :: rest, log =>
    let r := matchingPass env.users env.subs env.posts author post log
    let r2 := runPasses author post rest r.2
    (r.1 ++ r2.1, r2.2)

/-! ## Storage sessions and the publish flow
(`database/db.py` `get_session`, `handlers/post.py` `publish_post`) -/

/-- Persistent store: the three table-like structures of spec §3 plus the
user table. -/
structure Store where
  users : List User
  posts : List Post
  subs : List Subscription
  notif_log : Log
deriving DecidableEq

/-- A SQLAlchemy session over the store: the durable committed state and
the session's working (pending) view. -/
structure Session where
  committed : Store
  pending : Store
deriving DecidableEq

/-- `session.commit()`: the pending view becomes durable. -/
def commitS (s : Session) : Session := ⟨s.pending, s.pending⟩

/-- `session.rollback()`: the pending view is reset to the last durable
state. -/
def rollbackS (s : Session) : Session := ⟨s.committed, s.committed⟩

/-- Errors escaping a session body. -/
inductive DbErr where
  | matchFail
  | dbTimeout
  | generatorDidNotStop
  | authorMissing
deriving DecidableEq

/-- The timeout classifier of `database/db.py` line 42
(`"timeout" in str(e).lower() or "Request timeout error" in str(e)`). -/
def isTimeoutErr : DbErr → Bool
  | .dbTimeout => true
  | _ => false

/-- `get_session` (`database/db.py` lines 32-53): run the body; on normal
exit commit; on an exception roll back and re-raise — except that for a
timeout-classified error the generator yields a second time inside
`except`, which the `asynccontextmanager` protocol turns into
`RuntimeError("generator didn't stop after athrow()")` surfaced to the
caller (the body is not re-run). -/
def get_session {α : Type} (db : Store)
    (body : Session → Session × α × Option DbErr) :
    Store × α × Option DbErr :=
  let r := body ⟨db, db⟩
  match r.2.2 with
  | none => ((commitS r.1).committed, r.2.1, none)
  | some e =>
    ((rollbackS r.1).committed, r.2.1,
      some (if isTimeoutErr e then DbErr.generatorDidNotStop else e))

/-- The dialog data `publish_post` reads from the FSM state. -/
structure PostData where
  user_id : Nat
  role : String
  from_place : String
  to_place : String
  keys_from : List String
  keys_to : List String
  departure_time : String
  seats : Option Nat
  price : Int
deriving DecidableEq

/-- `session.flush()` id assignment: a fresh id above every existing row. -/
def freshPostId (posts : List Post) : Nat :=
  posts.foldr (fun p m => max (p.id + 1) m) 1

/-- The `Post(...)` construction of `handlers/post.py` lines 386-399:
`expires_at = now + POST_LIFETIME_MINUTES`; status `"active"` and
`created_at = now` are the column defaults, modelled from the spec
(§3: "created on publish"; `database/models.py` is absent). -/
def mkPost (data : PostData) (now : Nat) (pid : Nat) : Post :=
  { id := pid, author_id := data.user_id, role := data.role,
    from_place := data.from_place, to_place := data.to_place,
    keys_from := data.keys_from, keys_to := data.keys_to,
    departure_time := data.departure_time, seats := data.seats,
    price := data.price, status := "active", created_at := now,
    expires_at := now + POST_LIFETIME_MINUTES }

/-- The body of `publish_post` (`handlers/post.py` lines 384-541) run
inside `get_session`: build the post row, flush (id assignment), resolve
the author (`scalar_one` raises if absent), `session.commit()` at line
414, then the two matching passes.  `matchRaises` is the exception oracle
for the matching section, which the source wraps in **no** try/except:
an error raised there escapes the body. -/
def publishBody (data : PostData) (now : Nat) (matchRaises : Bool)
    (s : Session) : Session × List Dispatch × Option DbErr :=
  let post := mkPost data now (freshPostId s.pending.posts)
  let s1 : Session := ⟨s.committed, { s.pending with posts := post :: s.pending.posts }⟩
  match findUserById s1.pending.users data.user_id with
  | none => (s1, [], some DbErr.authorMissing)
  | some author =>
    let s2 := commitS s1
    if matchRaises then (s2, [], some DbErr.matchFail)
    else
      let r := matchingPass s2.pending.users s2.pending.subs s2.pending.posts
        author post s2.pending.notif_log
      (⟨s2.committed, { s2.pending with notif_log := r.2 }⟩, r.1, none)

/-- `publish_post` (`handlers/post.py` lines 377-556): the publish body
run under `get_session`.  Returns the durable store, the dispatches
enqueued, and the error surfaced to the caller, if any. -/
def publish_post (db : Store) (data : PostData) (now : Nat)
    (matchRaises : Bool) : Store × List Dispatch × Option DbErr :=
  get_session db (publishBody data now matchRaises)

/-! ## Concrete instances (used in counterexamples and witnesses) -/

/-- A registered driver. -/
def userA : User := ⟨1, 100⟩

/-- A registered passenger with a standing subscription. -/
def userB : User := ⟨2, 200⟩

/-- `userB`'s subscription on the Дордой → Аламедин route. -/
def subB : Subscription := ⟨2, ["дордой"], ["аламедин"], "Дордой", "Аламедин базар"⟩

/-- A store with the two users, `userB`'s subscription, no posts, empty
ledger. -/
def db0 : Store := ⟨[userA, userB], [], [subB], []⟩

/-- Dialog data for a post by `userA` matching `subB`. -/
def data0 : PostData :=
  ⟨1, "driver", "дордой", "аламедин базар", ["дордой"], ["аламедин"], "сейчас", some 3, 200⟩

/-- An active passenger post by `userA`. -/
def postP : Post :=
  ⟨1, 1, "passenger", "дордой", "аламедин", ["дордой"], ["аламедин"], "сейчас", none, 150, "active", 0, 60⟩

/-- An active driver post by `userB` on the same route. -/
def postM : Post :=
  ⟨5, 2, "driver", "дордой", "аламедин", ["дордой"], ["аламедин"], "сейчас", some 3, 150, "active", 0, 60⟩

/-- A ledger in which `userB` was already notified about post 1. -/
def log10 : Log := [(1, 2)]

/-- A matching environment containing both users, `subB` and `postM`. -/
def env1 : MatchEnv := ⟨[userA, userB], [subB], [postM]⟩

/-! ## Helper lemmas -/

theorem splitTokensAux_append_space (xs : List Char) (cur : List Char) :
    splitTokensAux (xs ++ [' ']) cur = splitTokensAux xs cur := by
  induction xs generalizing cur with
  | nil => simp [splitTokensAux]
  | cons c rest ih =>
    by_cases hc : c = ' ' <;> simp [splitTokensAux, hc, ih]

theorem keysOfChars_append_space (cs : List Char) :
    keysOfChars (cs ++ [' ']) = keysOfChars cs := by
  unfold keysOfChars
  rw [List.map_append]
  simp [splitTokensAux_append_space]

/-! ## Claim theorems -/

/-- C4: `generate_keys` is a pure deterministic function of the
case-folded input: inputs equal after case folding yield identical key
sets, trailing whitespace is irrelevant, and the spec's round-trip pair
`"Аламедин базар "` / `"аламедин базар"` yields identical (hence
overlapping) non-empty key sets. -/
theorem c4_generate_keys_stable :
    (∀ s t : String, s.toList.map charLower = t.toList.map charLower →
      generate_keys s = generate_keys t)
    ∧ (∀ s : String, generate_keys (s ++ " ") = generate_keys s)
    ∧ (generate_keys "Аламедин базар " = generate_keys "аламедин базар"
       ∧ generate_keys "Аламедин базар " ≠ []) := by
  refine ⟨?_, ?_, by decide, by decide⟩
  · intro s t h
    unfold generate_keys
    rw [h]
  · intro s
    unfold generate_keys
    have h1 : (s ++ " ").toList = s.toList ++ [' '] := by
      cases s
      rfl
    rw [h1, List.map_append]
    have h2 : List.map charLower [' '] = [' '] := by decide
    rw [h2, keysOfChars_append_space]

/-- Witness for C4: the case-folding congruence applied at a concrete
pair of inputs differing only by case. -/
theorem c4_generate_keys_stable_witness :
    generate_keys "Аламедин" = generate_keys "АЛАМЕДИН" :=
  c4_generate_keys_stable.1 "Аламедин" "АЛАМЕДИН" (by decide)

theorem retryGo_all_timeout {E A : Type} (outcomes : Nat → Except E A)
    (isT : E → Bool) (max_retries delay : Nat) (err : Nat → E)
    (hout : ∀ i, outcomes i = .error (err i)) (ht : ∀ i, isT (err i) = true) :
    ∀ d attempt, max_retries - attempt = d → attempt ≤ max_retries →
      retryGo outcomes isT max_retries delay attempt =
        (.error (err max_retries),
         (List.range d).map (fun j => delay * 2 ^ (attempt + j))) := by
  intro d
  induction d with
  | zero =>
    intro attempt hd hle
    have heq : attempt = max_retries := by omega
    rw [retryGo, hout attempt]
    simp [ht attempt, heq]
  | succ d ih =>
    intro attempt hd hle
    have hlt : attempt < max_retries := by omega
    rw [retryGo, hout attempt]
    simp only [ht attempt, if_true, dif_pos hlt,
      ih (attempt + 1) (by omega) (by omega)]
    have harr : (fun j => delay * 2 ^ (attempt + 1 + j)) =
        ((fun j => delay * 2 ^ (attempt + j)) ∘ Nat.succ) :=
      funext (fun x => by
        simp only [Function.comp]
        rw [show attempt + 1 + x = attempt + (x + 1) by omega])
    rw [List.range_succ_eq_map, List.map_cons, List.map_map, harr]
    simp

/-- C7: `retry_on_database_error`: when every attempt fails with a
timeout-classified error, the `max_retries` (default 2) extra attempts
are made with back-off sleeps `delay * 2 ^ attempt` and the last
exception is surfaced; an error not classified as a timeout is raised
immediately after the first attempt, with no retry and no sleep. -/
theorem c7_retry_policy :
    (∀ (E A : Type) (outcomes : Nat → Except E A) (isT : E → Bool)
       (max_retries delay : Nat) (err : Nat → E),
       (∀ i, outcomes i = .error (err i)) → (∀ i, isT (err i) = true) →
       retry_on_database_error outcomes isT max_retries delay =
         (.error (err max_retries),
          (List.range max_retries).map (fun j => delay * 2 ^ j)))
    ∧ (∀ (E A : Type) (outcomes : Nat → Except E A) (isT : E → Bool)
       (max_retries delay : Nat) (e : E),
       outcomes 0 = .error e → isT e = false →
       retry_on_database_error outcomes isT max_retries delay =
         (.error e, [])) := by
  constructor
  · intro E A outcomes isT max_retries delay err hout ht
    unfold retry_on_database_error
    rw [retryGo_all_timeout outcomes isT max_retries delay err hout ht
      max_retries 0 (by omega) (by omega)]
    simp
  · intro E A outcomes isT max_retries delay e h0 hT
    unfold retry_on_database_error
    rw [retryGo, h0]
    simp [hT]

/-- Witness for C7: three timeout failures leave `(error 2, [1, 2])`; one
non-timeout failure is surfaced at once with no sleeps. -/
theorem c7_retry_policy_witness :
    retry_on_database_error (E := Nat) (A := Nat)
      (fun i => .error i) (fun _ => true) 2 1 = (.error 2, [1, 2])
    ∧ retry_on_database_error (E := Nat) (A := Nat)
      (fun i => .error i) (fun _ => false) 2 1 = (.error 0, []) := by
  constructor
  · have h := c7_retry_policy.1 Nat Nat (fun i => .error i) (fun _ => true)
      2 1 (fun i => i) (fun _ => rfl) (fun _ => rfl)
    rw [h]
    rfl
  · exact c7_retry_policy.2 Nat Nat (fun i => .error i) (fun _ => false)
      2 1 0 rfl rfl

/-- C8: `process_price` on an actual price input (not the cancel / back
buttons): a value accepted always parses to an integer `p` with
`0 < p ≤ MAX_PRICE`, and the handler answers with a re-prompt — staying
at the price step, before any persistence — exactly when no such value
parses. -/
theorem c8_price_validation (text : String) (MAX_PRICE : Int)
    (hc : text ≠ "❌ Отмена") (hb : text ≠ "◀️ Назад") :
    (∀ p, process_price text MAX_PRICE = .accepted p →
      0 < p ∧ p ≤ MAX_PRICE ∧ pyInt (stripSpaces text) = some p)
    ∧ (process_price text MAX_PRICE = .reprompt ↔
      ¬∃ p, pyInt (stripSpaces text) = some p ∧ 0 < p ∧ p ≤ MAX_PRICE) := by
  unfold process_price
  rw [if_neg hc, if_neg hb]
  rcases hp : pyInt (stripSpaces text) with _ | p
  · refine ⟨fun p h => by simp at h, ?_⟩
    simp
  · by_cases hr : p ≤ 0 ∨ p > MAX_PRICE
    · simp only [if_pos hr]
      refine ⟨fun q h => by simp at h, ?_⟩
      simp only [true_iff]
      rintro ⟨q, hq, hq1, hq2⟩
      rw [Option.some_inj] at hq
      omega
    · simp only [if_neg hr]
      push_neg at hr
      constructor
      · intro q h
        rw [PriceResult.accepted.injEq] at h
        subst h
        exact ⟨hr.1, hr.2, rfl⟩
      · constructor
        · intro h
          simp at h
        · intro h
          exact absurd ⟨p, rfl, hr.1, hr.2⟩ h

/-- Witness for C8: the input `"0"` is re-prompted, and indeed no
in-range value parses from it. -/
theorem c8_price_validation_witness :
    ¬∃ p, pyInt (stripSpaces "0") = some p ∧ 0 < p ∧ p ≤ (1000 : Int) :=
  (c8_price_validation "0" 1000 (by decide) (by decide)).2.mp (by decide)

/-- C3: `start_create_post` for a registered user: the creation attempt
is rejected if and only if the user currently has a post with status
`"active"`; otherwise (in particular when every post of theirs is
`"paused"`, `"expired"` or `"deleted"`) the dialog proceeds and nothing
blocks creation. -/
theorem c3_one_active_post_gate (users : List User) (posts : List Post)
    (tg : Nat) (u : User)
    (h : users.find? (fun v => v.telegram_id == tg) = some u) :
    ((∃ pid, start_create_post users posts tg = .rejectedActive pid) ↔
      ∃ p ∈ posts, p.author_id = u.id ∧ p.status = "active")
    ∧ (start_create_post users posts tg = .proceed u.id ↔
      ∀ p ∈ posts, ¬(p.author_id = u.id ∧ p.status = "active")) := by
  unfold start_create_post
  rw [h]
  rcases hf : posts.find? (fun p => p.author_id == u.id && p.status == "active")
    with _ | ap
  · simp only [hf]
    rw [List.find?_eq_none] at hf
    constructor
    · constructor
      · rintro ⟨pid, hpid⟩
        exact absurd hpid (by simp)
      · rintro ⟨p, hp, h1, h2⟩
        exact absurd (by simp [h1, h2]) (hf p hp)
    · constructor
      · intro _ p hp hcon
        exact absurd (by simp [hcon.1, hcon.2]) (hf p hp)
      · intro _
        trivial
  · simp only [hf]
    have hap1 := List.find?_some hf
    have hap2 := List.mem_of_find?_eq_some hf
    simp only [Bool.and_eq_true, beq_iff_eq] at hap1
    constructor
    · constructor
      · intro _
        exact ⟨ap, hap2, hap1.1, hap1.2⟩
      · intro _
        exact ⟨ap.id, rfl⟩
    · constructor
      · intro hcon
        exact absurd hcon (by simp)
      · intro hall
        exact absurd ⟨hap1.1, hap1.2⟩ (hall ap hap2)

/-- Witness for C3: with one active post the attempt is rejected; with
the same post paused it proceeds. -/
theorem c3_one_active_post_gate_witness :
    (∃ pid, start_create_post [userA] [postP] 100 = .rejectedActive pid)
    ∧ start_create_post [userA] [{ postP with status := "paused" }] 100 =
        .proceed userA.id := by
  constructor
  · exact (c3_one_active_post_gate [userA] [postP] 100 userA (by decide)).1.mpr
      ⟨postP, by decide, by decide, by decide⟩
  · exact (c3_one_active_post_gate [userA] [{ postP with status := "paused" }]
      100 userA (by decide)).2.mpr (by decide)

/-- C9: `subscribe_to_route` with no row yet on the key
`(owner, origin keys, destination keys)`: the first attempt succeeds, a
second identical attempt is answered "Такая подписка уже существует"
without raising and without changing the stored rows, and exactly one
row with that key exists afterwards. -/
theorem c9_duplicate_subscription_rejected (subs : List Subscription)
    (s : Subscription) (h : subs.countP (sameSubKey s) = 0) :
    (subscribe_to_route subs s).2 = "✅ Подписка создана!"
    ∧ subscribe_to_route (subscribe_to_route subs s).1 s =
        ((subscribe_to_route subs s).1, "Такая подписка уже существует")
    ∧ ((subscribe_to_route subs s).1).countP (sameSubKey s) = 1 := by
  have hany : subs.any (sameSubKey s) = false := by
    rw [List.any_eq_false]
    intro x hx
    rw [List.countP_eq_zero] at h
    exact h x hx
  have hself : sameSubKey s s = true := by
    simp [sameSubKey]
  have h1 : subscribe_to_route subs s = (s :: subs, "✅ Подписка создана!") := by
    unfold subscribe_to_route insertSubscription
    rw [hany]
    rfl
  refine ⟨by rw [h1], ?_, ?_⟩
  · rw [h1]
    have h2 : (s :: subs).any (sameSubKey s) = true := by
      simp [hself]
    simp [subscribe_to_route, insertSubscription, h2]
  · rw [h1]
    simp [List.countP_cons, hself, h]

/-- Witness for C9: the empty table and `subB`. -/
theorem c9_duplicate_subscription_rejected_witness :
    (subscribe_to_route [] subB).2 = "✅ Подписка создана!"
    ∧ subscribe_to_route (subscribe_to_route [] subB).1 subB =
        ((subscribe_to_route [] subB).1, "Такая подписка уже существует")
    ∧ ((subscribe_to_route [] subB).1).countP (sameSubKey subB) = 1 :=
  c9_duplicate_subscription_rejected [] subB (by decide)

/-- C6: every post created by `publish_post` — whether or not the
matching section later fails — stores
`expires_at = created_at + POST_LIFETIME_MINUTES`, for all dialog data
(role, price, route) and all creation times. -/
theorem c6_expiry_fixed_window (db : Store) (data : PostData) (now : Nat)
    (matchRaises : Bool) (a : User)
    (h : findUserById db.users data.user_id = some a) :
    ∃ p : Post, (publish_post db data now matchRaises).1.posts = p :: db.posts
      ∧ p.expires_at = p.created_at + POST_LIFETIME_MINUTES := by
  refine ⟨mkPost data now (freshPostId db.posts), ?_, rfl⟩
  unfold publish_post get_session publishBody
  simp only [h, commitS, rollbackS]
  cases matchRaises <;> simp

/-- Witness for C6: the concrete store `db0`. -/
theorem c6_expiry_fixed_window_witness :
    ∃ p : Post, (publish_post db0 data0 5 false).1.posts = p :: db0.posts
      ∧ p.expires_at = p.created_at + POST_LIFETIME_MINUTES :=
  c6_expiry_fixed_window db0 data0 5 false userA (by decide)

/-- C2 counterexample: with `db0` and an exception raised in the matching
section, `publish_post` surfaces the error to its caller — the publish
operation fails instead of logging and swallowing the error inside the
publish flow (the post row itself, committed beforehand, does persist). -/
theorem c2_counterexample :
    (publish_post db0 data0 5 true).2.2 = some DbErr.matchFail
    ∧ (publish_post db0 data0 5 true).1.posts = [mkPost data0 5 1] := by
  constructor <;> rfl

/-- C2 amended: an exception in the matching or dispatch section is *not*
swallowed inside the publish flow — `get_session` rolls back, logs and
re-raises it, so the handler fails — but the post row was committed
before matching and persists, so the post is still created whenever
publishing reaches the matching section. -/
theorem c2_amended (db : Store) (data : PostData) (now : Nat) (a : User)
    (h : findUserById db.users data.user_id = some a) :
    (publish_post db data now true).2.2 = some DbErr.matchFail
    ∧ ∃ p : Post, (publish_post db data now true).1.posts = p :: db.posts := by
  unfold publish_post get_session publishBody
  simp only [h, commitS, rollbackS]
  exact ⟨by simp [isTimeoutErr], ⟨mkPost data now (freshPostId db.posts), by simp⟩⟩

/-- Witness for C2 amended: the concrete store `db0`. -/
theorem c2_amended_witness :
    (publish_post db0 data0 5 true).2.2 = some DbErr.matchFail
    ∧ ∃ p : Post, (publish_post db0 data0 5 true).1.posts = p :: db0.posts :=
  c2_amended db0 data0 5 userA (by decide)

/-- C5 counterexample: a publish whose matching section raises after the
mid-body `session.commit()` leaves a durable store that is neither the
initial store (not fully rolled back: the post row persists) nor the
store of a successful publish (not fully committed: the dedup entry for
the matched subscriber is missing) — the publish transaction is not
atomic as a unit. -/
theorem c5_counterexample :
    (publish_post db0 data0 5 true).2.2.isSome = true
    ∧ (publish_post db0 data0 5 true).1 ≠ db0
    ∧ (publish_post db0 data0 5 true).1 ≠ (publish_post db0 data0 5 false).1 := by
  refine ⟨rfl, by decide, by decide⟩

/-- C5 amended: `get_session` discards only the changes pending since the
last commit: an exception *before* the first commit rolls the store back
to its initial state, while an exception in the matching section — after
the commit at line 414 — leaves exactly the post row durable with no
dedup entries and the rest of the store untouched; atomicity holds per
commit segment, not for the publish as a whole. -/
theorem c5_amended (db : Store) (data : PostData) (now : Nat) (a : User)
    (h : findUserById db.users data.user_id = some a) :
    (publish_post db data now true).1 =
      { db with posts := mkPost data now (freshPostId db.posts) :: db.posts }
    ∧ (publish_post db data now true).2.2 = some DbErr.matchFail
    ∧ ∀ (db2 : Store) (data2 : PostData),
        findUserById db2.users data2.user_id = none →
        (publish_post db2 data2 now true).1 = db2 := by
  refine ⟨?_, ?_, ?_⟩
  · simp [publish_post, get_session, publishBody, h, commitS, rollbackS]
  · simp [publish_post, get_session, publishBody, h, commitS, rollbackS,
      isTimeoutErr]
  · intro db2 data2 h2
    simp [publish_post, get_session, publishBody, h2, commitS, rollbackS]

/-- Witness for C5 amended: the concrete store `db0`, and a store with no
users for the pre-commit rollback branch. -/
theorem c5_amended_witness :
    (publish_post db0 data0 5 true).1 =
      { db0 with posts := mkPost data0 5 (freshPostId db0.posts) :: db0.posts }
    ∧ (publish_post db0 data0 5 true).2.2 = some DbErr.matchFail
    ∧ ∀ (db2 : Store) (data2 : PostData),
        findUserById db2.users data2.user_id = none →
        (publish_post db2 data2 5 true).1 = db2 :=
  c5_amended db0 data0 5 userA (by decide)

theorem mem_record_notified (log : Log) (p i : Nat) (pr : Nat × Nat) :
    pr ∈ record_notified log p i ↔ pr ∈ log ∨ pr = (p, i) := by
  unfold record_notified has_notified
  by_cases hc : (p, i) ∈ log
  · rw [if_pos (by simpa using hc)]
    exact ⟨Or.inl, fun h => h.elim id (fun h2 => h2 ▸ hc)⟩
  · rw [if_neg (by simpa using hc)]
    simp [List.mem_cons, or_comm]

/-- C10 counterexample: `postM` is found by `find_matching_posts` for
`postP`, yet with `userB` already in the ledger for `postP` no
author-directed dispatch keyed by `postM.id` is enqueued — and with an
empty ledger it is — so the enqueue is neither unconditional nor free of
a prior `NotificationLog` lookup. -/
theorem c10_counterexample :
    postM ∈ find_matching_posts [postM] postP
    ∧ (postToPostNotify postP userA [userA, userB]
        (find_matching_posts [postM] postP) log10).1.count ⟨userA.id, postM.id⟩ = 0
    ∧ (postToPostNotify postP userA [userA, userB]
        (find_matching_posts [postM] postP) []).1.count ⟨userA.id, postM.id⟩ = 1 := by
  refine ⟨by decide, by decide, by decide⟩

/-- C10 amended: for a matching post whose author resolves and whose
`(new post, matching author)` pair is not already in the ledger, the loop
enqueues both the guarded dispatch to the matching author (keyed by the
new post) and the author-directed dispatch keyed by the matching post's
id; and the ledger only ever gains entries keyed by the *new* post's id,
so no `(matching post, publishing author)` pair is ever recorded — that
pair is not deduplicated by the ledger. -/
theorem c10_amended (users : List User) (author : User) (post : Post)
    (log : Log) (mp : Post) (rest : List Post) (ma : User)
    (hfind : findUserById users mp.author_id = some ma)
    (hnot : has_notified log post.id ma.id = false) :
    (Dispatch.mk author.id mp.id ∈
        (postToPostNotify post author users (mp :: rest) log).1
      ∧ Dispatch.mk ma.id post.id ∈
        (postToPostNotify post author users (mp :: rest) log).1)
    ∧ ∀ (mps : List Post) (log0 : Log),
        ∀ pr ∈ (postToPostNotify post author users mps log0).2,
          pr ∈ log0 ∨ pr.1 = post.id := by
  constructor
  · constructor <;> simp [postToPostNotify, hfind, hnot]
  · intro mps log0
    induction mps generalizing log0 with
    | nil =>
      intro pr hpr
      simp only [postToPostNotify] at hpr
      exact Or.inl hpr
    | cons q qs ih =>
      intro pr hpr
      rcases hq : findUserById users q.author_id with _ | qa
      · rw [postToPostNotify] at hpr
        simp only [hq] at hpr
        exact ih log0 pr hpr
      · rw [postToPostNotify] at hpr
        simp only [hq] at hpr
        by_cases hg : has_notified log0 post.id qa.id = true
        · simp only [if_pos hg] at hpr
          exact ih log0 pr hpr
        · simp only [if_neg hg] at hpr
          rcases ih (record_notified log0 post.id qa.id) pr hpr with h1 | h1
          · rcases (mem_record_notified _ _ _ _).mp h1 with h2 | h2
            · exact Or.inl h2
            · right
              rw [h2]
          · exact Or.inr h1

/-- Witness for C10 amended: the concrete matching pair with an empty
ledger. -/
theorem c10_amended_witness :
    (Dispatch.mk userA.id postM.id ∈
        (postToPostNotify postP userA [userA, userB] [postM] []).1
      ∧ Dispatch.mk userB.id postP.id ∈
        (postToPostNotify postP userA [userA, userB] [postM] []).1)
    ∧ ∀ (mps : List Post) (log0 : Log),
        ∀ pr ∈ (postToPostNotify postP userA [userA, userB] mps log0).2,
          pr ∈ log0 ∨ pr.1 = postP.id :=
  c10_amended [userA, userB] userA postP [] postM [] userB (by decide) (by decide)

theorem has_notified_iff (log : Log) (p i : Nat) :
    has_notified log p i = true ↔ (p, i) ∈ log := by
  simp [has_notified]

theorem record_notified_count_le_one (log : Log) (p i : Nat) (pr : Nat × Nat)
    (h : log.count pr ≤ 1) : (record_notified log p i).count pr ≤ 1 := by
  unfold record_notified has_notified
  by_cases hc : (p, i) ∈ log
  · rw [if_pos (by simpa using hc)]
    exact h
  · rw [if_neg (by simpa using hc)]
    rw [List.count_cons]
    by_cases hpr : pr = (p, i)
    · subst hpr
      have h0 : log.count (p, i) = 0 := List.count_eq_zero.mpr hc
      simp [h0]
    · have : ((p, i) == pr) = false := by
        simp only [beq_eq_false_iff_ne, ne_eq]
        exact fun hx => hpr hx.symm
      simp [this, h]

theorem findUserById_id (users : List User) (i : Nat) (u : User)
    (h : findUserById users i = some u) : u.id = i := by
  have h2 := List.find?_some h
  simpa using h2

theorem mem_filterMap_findUserById (users : List User) (l : List Nat) (u : User)
    (h : u ∈ l.filterMap (findUserById users)) : u.id ∈ l := by
  rcases List.mem_filterMap.mp h with ⟨i, hi, hfind⟩
  rw [findUserById_id users i u hfind]
  exact hi

theorem filterMap_find_countP_le_one (users : List User) (l : List Nat) (r : Nat)
    (hnd : l.Nodup) :
    (l.filterMap (findUserById users)).countP (fun u => u.id == r) ≤ 1 := by
  induction l with
  | nil => simp
  | cons i t ih =>
    rw [List.filterMap_cons]
    have hndt : t.Nodup := hnd.of_cons
    have hit : i ∉ t := (List.nodup_cons.mp hnd).1
    rcases hf : findUserById users i with _ | u
    · exact ih hndt
    · rw [List.countP_cons]
      by_cases hr : u.id = r
      · have hid : u.id = i := findUserById_id users i u hf
        have h0 : (t.filterMap (findUserById users)).countP (fun v => v.id == r) = 0 := by
          rw [List.countP_eq_zero]
          intro v hv
          have hvt : v.id ∈ t := mem_filterMap_findUserById users t v hv
          simp only [beq_iff_eq]
          intro hvr
          rw [hvr, ← hr, hid] at hvt
          exact hit hvt
        simp [h0, hr]
      · have hf2 : (u.id == r) = false := by simpa using hr
        simp only [hf2, if_false, Nat.add_zero]
        exact ih hndt

theorem users_to_notify_countP_le_one (users : List User) (log : Log)
    (post : Post) (ids : List Nat) (r : Nat) (hnd : ids.Nodup) :
    (get_users_to_notify users log post ids).countP (fun u => u.id == r) ≤ 1 := by
  unfold get_users_to_notify
  exact filterMap_find_countP_le_one users _ r (hnd.filter _)

theorem users_to_notify_countP_notlogged (users : List User) (log : Log)
    (post : Post) (ids : List Nat) (r : Nat)
    (h : has_notified log post.id r = true) :
    (get_users_to_notify users log post ids).countP (fun u => u.id == r) = 0 := by
  unfold get_users_to_notify
  rw [List.countP_eq_zero]
  intro u hu
  have hid : u.id ∈ ids.filter (fun i => !(has_notified log post.id i)) :=
    mem_filterMap_findUserById users _ u hu
  have hkeep := (List.mem_filter.mp hid).2
  simp only [beq_iff_eq]
  intro hur
  rw [hur] at hkeep
  simp [h] at hkeep

theorem subscriptionNotify_log_mem (post : Post) (us : List User) :
    ∀ (log : Log) (pr : Nat × Nat),
      pr ∈ (subscriptionNotify post us log).2 ↔
        pr ∈ log ∨ ∃ u ∈ us, pr = (post.id, u.id) := by
  induction us with
  | nil =>
    intro log pr
    simp [subscriptionNotify]
  | cons u rest ih =>
    intro log pr
    rw [subscriptionNotify]
    simp only []
    rw [ih, mem_record_notified]
    simp only [List.exists_mem_cons_iff]
    tauto

theorem subscriptionNotify_dispatch_count (post : Post) (us : List User)
    (r : Nat) : ∀ log : Log,
    ((subscriptionNotify post us log).1).count ⟨r, post.id⟩ =
      us.countP (fun u => u.id == r) := by
  induction us with
  | nil =>
    intro log
    simp [subscriptionNotify]
  | cons u rest ih =>
    intro log
    rw [subscriptionNotify]
    simp only [List.count_cons, List.countP_cons, ih]
    by_cases hu : u.id = r
    · simp [hu]
    · have h1 : (Dispatch.mk u.id post.id == Dispatch.mk r post.id) = false := by
        simp [Dispatch.mk.injEq, hu]
      have h2 : (u.id == r) = false := by simpa using hu
      simp [h1, h2]

theorem subscriptionNotify_log_count (post : Post) (us : List User) :
    ∀ (log : Log) (pr : Nat × Nat), log.count pr ≤ 1 →
      ((subscriptionNotify post us log).2).count pr ≤ 1 := by
  induction us with
  | nil =>
    intro log pr h
    simpa [subscriptionNotify] using h
  | cons u rest ih =>
    intro log pr h
    rw [subscriptionNotify]
    exact ih _ pr (record_notified_count_le_one log post.id u.id pr h)

theorem postToPostNotify_log_mono (post : Post) (author : User)
    (users : List User) (mps : List Post) :
    ∀ (log : Log) (pr : Nat × Nat), pr ∈ log →
      pr ∈ (postToPostNotify post author users mps log).2 := by
  induction mps with
  | nil =>
    intro log pr h
    simpa [postToPostNotify] using h
  | cons q qs ih =>
    intro log pr h
    rw [postToPostNotify]
    rcases hq : findUserById users q.author_id with _ | qa
    · simp only [hq]
      exact ih log pr h
    · simp only [hq]
      by_cases hg : has_notified log post.id qa.id = true
      · rw [if_pos hg]
        exact ih log pr h
      · rw [if_neg hg]
        simp only []
        exact ih _ pr ((mem_record_notified log post.id qa.id pr).mpr (Or.inl h))

theorem postToPostNotify_log_count (post : Post) (author : User)
    (users : List User) (mps : List Post) :
    ∀ (log : Log) (pr : Nat × Nat), log.count pr ≤ 1 →
      ((postToPostNotify post author users mps log).2).count pr ≤ 1 := by
  induction mps with
  | nil =>
    intro log pr h
    simpa [postToPostNotify] using h
  | cons q qs ih =>
    intro log pr h
    rw [postToPostNotify]
    rcases hq : findUserById users q.author_id with _ | qa
    · simp only [hq]
      exact ih log pr h
    · simp only [hq]
      by_cases hg : has_notified log post.id qa.id = true
      · rw [if_pos hg]
        exact ih log pr h
      · rw [if_neg hg]
        simp only []
        exact ih _ pr (record_notified_count_le_one log post.id qa.id pr h)

theorem postToPostNotify_count_inlog (post : Post) (author : User)
    (users : List User) (mps : List Post) (r : Nat) :
    ∀ log : Log, (∀ mp ∈ mps, mp.id ≠ post.id) → (post.id, r) ∈ log →
      ((postToPostNotify post author users mps log).1).count ⟨r, post.id⟩ = 0 := by
  induction mps with
  | nil =>
    intro log hmp h
    simp [postToPostNotify]
  | cons q qs ih =>
    intro log hmp h
    rw [postToPostNotify]
    have hq1 : q.id ≠ post.id := hmp q (List.mem_cons_self q qs)
    have hqs : ∀ mp ∈ qs, mp.id ≠ post.id :=
      fun mp hm => hmp mp (List.mem_cons_of_mem q hm)
    rcases hf : findUserById users q.author_id with _ | qa
    · simp only [hf]
      exact ih log hqs h
    · simp only [hf]
      by_cases hg : has_notified log post.id qa.id = true
      · rw [if_pos hg]
        exact ih log hqs h
      · rw [if_neg hg]
        simp only []
        have hqa : qa.id ≠ r := by
          intro heq
          rw [heq] at hg
          exact hg ((has_notified_iff log post.id r).mpr h)
        have hds := ih (record_notified log post.id qa.id) hqs
          ((mem_record_notified log post.id qa.id (post.id, r)).mpr (Or.inl h))
        rw [List.count_cons, List.count_cons, hds]
        have h1 : (Dispatch.mk qa.id post.id == Dispatch.mk r post.id) = false := by
          simp [Dispatch.mk.injEq, hqa]
        have h2 : (Dispatch.mk author.id q.id == Dispatch.mk r post.id) = false := by
          simp [Dispatch.mk.injEq, hq1]
        simp [h1, h2]

theorem postToPostNotify_dichotomy (post : Post) (author : User)
    (users : List User) (mps : List Post) (r : Nat) :
    ∀ log : Log, (∀ mp ∈ mps, mp.id ≠ post.id) → (post.id, r) ∉ log →
      (((postToPostNotify post author users mps log).1).count ⟨r, post.id⟩ = 0
        ∧ (post.id, r) ∉ (postToPostNotify post author users mps log).2)
      ∨ (((postToPostNotify post author users mps log).1).count ⟨r, post.id⟩ = 1
        ∧ (post.id, r) ∈ (postToPostNotify post author users mps log).2) := by
  induction mps with
  | nil =>
    intro log hmp h
    left
    constructor
    · simp [postToPostNotify]
    · simpa [postToPostNotify] using h
  | cons q qs ih =>
    intro log hmp h
    rw [postToPostNotify]
    have hq1 : q.id ≠ post.id := hmp q (List.mem_cons_self q qs)
    have hqs : ∀ mp ∈ qs, mp.id ≠ post.id :=
      fun mp hm => hmp mp (List.mem_cons_of_mem q hm)
    rcases hf : findUserById users q.author_id with _ | qa
    · simp only [hf]
      exact ih log hqs h
    · simp only [hf]
      by_cases hg : has_notified log post.id qa.id = true
      · rw [if_pos hg]
        exact ih log hqs h
      · rw [if_neg hg]
        simp only []
        by_cases hqa : qa.id = r
        · right
          subst hqa
          have hmem : (post.id, qa.id) ∈ record_notified log post.id qa.id :=
            (mem_record_notified log post.id qa.id (post.id, qa.id)).mpr (Or.inr rfl)
          constructor
          · have hds := postToPostNotify_count_inlog post author users qs qa.id
              (record_notified log post.id qa.id) hqs hmem
            rw [List.count_cons, List.count_cons, hds]
            have h2 : (Dispatch.mk author.id q.id == Dispatch.mk qa.id post.id) = false := by
              simp [Dispatch.mk.injEq, hq1]
            simp [h2]
          · exact postToPostNotify_log_mono post author users qs _ _ hmem
        · have hπ : (post.id, r) ∉ record_notified log post.id qa.id := by
            rw [mem_record_notified]
            rintro (hmem | heq)
            · exact h hmem
            · rw [Prod.mk.injEq] at heq
              exact hqa heq.2.symm
          have h1 : (Dispatch.mk qa.id post.id == Dispatch.mk r post.id) = false := by
            simp [Dispatch.mk.injEq, hqa]
          have h2 : (Dispatch.mk author.id q.id == Dispatch.mk r post.id) = false := by
            simp [Dispatch.mk.injEq, hq1]
          rcases ih (record_notified log post.id qa.id) hqs hπ with ⟨hc, hm⟩ | ⟨hc, hm⟩
          · left
            constructor
            · rw [List.count_cons, List.count_cons, hc]
              simp [h1, h2]
            · exact hm
          · right
            constructor
            · rw [List.count_cons, List.count_cons, hc]
              simp [h1, h2]
            · exact hm

theorem mem_find_matching_posts_ne (posts : List Post) (post : Post)
    (mp : Post) (h : mp ∈ find_matching_posts posts post) : mp.id ≠ post.id := by
  have h2 := (List.mem_filter.mp h).2
  simp only [Bool.and_eq_true, bne_iff_ne, ne_eq] at h2
  exact h2.1.1.1.1.1

theorem matchingPass_inlog (users : List User) (subs : List Subscription)
    (posts : List Post) (author : User) (post : Post) (log : Log) (r : Nat)
    (h : (post.id, r) ∈ log) :
    ((matchingPass users subs posts author post log).1).count ⟨r, post.id⟩ = 0
    ∧ (post.id, r) ∈ (matchingPass users subs posts author post log).2 := by
  unfold matchingPass
  simp only []
  have hn : has_notified log post.id r = true := (has_notified_iff log post.id r).mpr h
  have h8 := users_to_notify_countP_notlogged users log post
    (find_matching_subscriptions subs post) r hn
  have h4 := subscriptionNotify_dispatch_count post
    (get_users_to_notify users log post (find_matching_subscriptions subs post)) r log
  have hm1 : (post.id, r) ∈ (subscriptionNotify post
      (get_users_to_notify users log post (find_matching_subscriptions subs post)) log).2 :=
    (subscriptionNotify_log_mem post _ log (post.id, r)).mpr (Or.inl h)
  have hmp : ∀ mp ∈ find_matching_posts posts post, mp.id ≠ post.id :=
    fun mp hm => mem_find_matching_posts_ne posts post mp hm
  constructor
  · rw [List.count_append, h4, h8,
      postToPostNotify_count_inlog post author users
        (find_matching_posts posts post) r _ hmp hm1]
  · exact postToPostNotify_log_mono post author users
      (find_matching_posts posts post) _ _ hm1

theorem matchingPass_dichotomy (users : List User) (subs : List Subscription)
    (posts : List Post) (author : User) (post : Post) (log : Log) (r : Nat)
    (h : (post.id, r) ∉ log) :
    (((matchingPass users subs posts author post log).1).count ⟨r, post.id⟩ = 0
      ∧ (post.id, r) ∉ (matchingPass users subs posts author post log).2)
    ∨ (((matchingPass users subs posts author post log).1).count ⟨r, post.id⟩ = 1
      ∧ (post.id, r) ∈ (matchingPass users subs posts author post log).2) := by
  unfold matchingPass
  simp only []
  have hnd : (find_matching_subscriptions subs post).Nodup := List.nodup_dedup _
  have h7 := users_to_notify_countP_le_one users log post
    (find_matching_subscriptions subs post) r hnd
  have h4 := subscriptionNotify_dispatch_count post
    (get_users_to_notify users log post (find_matching_subscriptions subs post)) r log
  have hmem1 := subscriptionNotify_log_mem post
    (get_users_to_notify users log post (find_matching_subscriptions subs post))
    log (post.id, r)
  have hmp : ∀ mp ∈ find_matching_posts posts post, mp.id ≠ post.id :=
    fun mp hm => mem_find_matching_posts_ne posts post mp hm
  by_cases hc : ∃ u ∈ get_users_to_notify users log post
      (find_matching_subscriptions subs post), u.id = r
  · right
    obtain ⟨u, hu, hur⟩ := hc
    have hpos : 0 < (get_users_to_notify users log post
        (find_matching_subscriptions subs post)).countP (fun u => u.id == r) :=
      List.countP_pos_iff.mpr ⟨u, hu, by simpa using hur⟩
    have hone : (get_users_to_notify users log post
        (find_matching_subscriptions subs post)).countP (fun u => u.id == r) = 1 := by
      omega
    have hm1 : (post.id, r) ∈ (subscriptionNotify post
        (get_users_to_notify users log post (find_matching_subscriptions subs post)) log).2 :=
      hmem1.mpr (Or.inr ⟨u, hu, by rw [hur]⟩)
    constructor
    · rw [List.count_append, h4, hone,
        postToPostNotify_count_inlog post author users
          (find_matching_posts posts post) r _ hmp hm1]
    · exact postToPostNotify_log_mono post author users
        (find_matching_posts posts post) _ _ hm1
  · have hzero : (get_users_to_notify users log post
        (find_matching_subscriptions subs post)).countP (fun u => u.id == r) = 0 := by
      rw [List.countP_eq_zero]
      intro u hu hbad
      exact hc ⟨u, hu, by simpa using hbad⟩
    have hm1 : (post.id, r) ∉ (subscriptionNotify post
        (get_users_to_notify users log post (find_matching_subscriptions subs post)) log).2 := by
      rw [hmem1]
      rintro (hx | ⟨u, hu, hx⟩)
      · exact h hx
      · rw [Prod.mk.injEq] at hx
        exact hc ⟨u, hu, hx.2.symm⟩
    rcases postToPostNotify_dichotomy post author users
        (find_matching_posts posts post) r _ hmp hm1 with ⟨hc2, hm2⟩ | ⟨hc2, hm2⟩
    · left
      constructor
      · rw [List.count_append, h4, hzero, hc2]
      · exact hm2
    · right
      constructor
      · rw [List.count_append, h4, hzero, hc2]
      · exact hm2

theorem matchingPass_log_count (users : List User) (subs : List Subscription)
    (posts : List Post) (author : User) (post : Post) (log : Log)
    (pr : Nat × Nat) (h : log.count pr ≤ 1) :
    ((matchingPass users subs posts author post log).2).count pr ≤ 1 := by
  unfold matchingPass
  simp only []
  exact postToPostNotify_log_count post author users _ _ pr
    (subscriptionNotify_log_count post _ log pr h)

theorem runPasses_invariant (author : User) (post : Post)
    (envs : List MatchEnv) :
    ∀ (log : Log) (r : Nat),
      ((post.id, r) ∈ log →
        ((runPasses author post envs log).1).count ⟨r, post.id⟩ = 0
        ∧ (post.id, r) ∈ (runPasses author post envs log).2)
      ∧ ((post.id, r) ∉ log →
        (((runPasses author post envs log).1).count ⟨r, post.id⟩ = 0
          ∧ (post.id, r) ∉ (runPasses author post envs log).2)
        ∨ (((runPasses author post envs log).1).count ⟨r, post.id⟩ ≤ 1
          ∧ (post.id, r) ∈ (runPasses author post envs log).2)) := by
  induction envs with
  | nil =>
    intro log r
    constructor
    · intro h
      exact ⟨by simp [runPasses], by simpa [runPasses] using h⟩
    · intro h
      left
      exact ⟨by simp [runPasses], by simpa [runPasses] using h⟩
  | cons env rest ih =>
    intro log r
    rw [runPasses]
    simp only []
    constructor
    · intro h
      obtain ⟨hc1, hm1⟩ := matchingPass_inlog env.users env.subs env.posts
        author post log r h
      obtain ⟨hc2, hm2⟩ := (ih _ r).1 hm1
      exact ⟨by rw [List.count_append, hc1, hc2], hm2⟩
    · intro h
      rcases matchingPass_dichotomy env.users env.subs env.posts author post
          log r h with ⟨hc1, hm1⟩ | ⟨hc1, hm1⟩
      · rcases (ih _ r).2 hm1 with ⟨hc2, hm2⟩ | ⟨hc2, hm2⟩
        · left
          exact ⟨by rw [List.count_append, hc1, hc2], hm2⟩
        · right
          constructor
          · rw [List.count_append, hc1]
            omega
          · exact hm2
      · obtain ⟨hc2, hm2⟩ := (ih _ r).1 hm1
        right
        constructor
        · rw [List.count_append, hc1, hc2]
        · exact hm2

theorem runPasses_log_count (author : User) (post : Post)
    (envs : List MatchEnv) :
    ∀ (log : Log) (pr : Nat × Nat), log.count pr ≤ 1 →
      ((runPasses author post envs log).2).count pr ≤ 1 := by
  induction envs with
  | nil =>
    intro log pr h
    simpa [runPasses] using h
  | cons env rest ih =>
    intro log pr h
    rw [runPasses]
    simp only []
    exact ih _ pr (matchingPass_log_count env.users env.subs env.posts
      author post log pr h)

/-- C1: across any number of matching passes for the same post — each
pass running the subscription path and then the post-to-post path — a
recipient not yet in the ledger for the post receives at most one
dispatch keyed by that post, the ledger ends with at most one entry for
the `(post, recipient)` pair, and a second `record_notified` for an
already-recorded pair is a no-op, not an error. -/
theorem c1_dedup_at_most_once (author : User) (post : Post)
    (envs : List MatchEnv) (log0 : Log) (r : Nat)
    (h : (post.id, r) ∉ log0) :
    ((runPasses author post envs log0).1).count ⟨r, post.id⟩ ≤ 1
    ∧ ((runPasses author post envs log0).2).count (post.id, r) ≤ 1
    ∧ ∀ log : Log, (post.id, r) ∈ log → record_notified log post.id r = log := by
  refine ⟨?_, ?_, ?_⟩
  · rcases (runPasses_invariant author post envs log0 r).2 h with ⟨hc, _⟩ | ⟨hc, _⟩
    · omega
    · exact hc
  · apply runPasses_log_count
    have h0 : log0.count (post.id, r) = 0 := List.count_eq_zero.mpr h
    omega
  · intro log hm
    unfold record_notified
    rw [if_pos ((has_notified_iff log post.id r).mpr hm)]

/-- Witness for C1: the post published by `userA` matched twice (two
passes over `env1`) against `userB`'s subscription and `userB`'s own
opposite post, starting from an empty ledger. -/
theorem c1_dedup_at_most_once_witness :
    ((runPasses userA (mkPost data0 5 1) [env1, env1] []).1).count
        ⟨userB.id, (mkPost data0 5 1).id⟩ ≤ 1
    ∧ ((runPasses userA (mkPost data0 5 1) [env1, env1] []).2).count
        ((mkPost data0 5 1).id, userB.id) ≤ 1
    ∧ ∀ log : Log, ((mkPost data0 5 1).id, userB.id) ∈ log →
        record_notified log (mkPost data0 5 1).id userB.id = log :=
  c1_dedup_at_most_once userA (mkPost data0 5 1) [env1, env1] [] userB.id
    (by decide)

end Taxi
